import Mathlib

/-!
# Casa server command: supervisor start-up, credential provisioning, shutdown

A shallow embedding of `cmd/casa/cmd/server.go`.

* Go `map[string]string` values are association lists (`StringMap`).
* `math/rand` is a stream of raw draws (`Rand`); `Intn n` consumes one draw and
  returns it reduced into `[0, n)`.
* Calls made on external collaborators (logger, services, bus) are recorded as
  a list of `Event`s in program order; the answers of the collaborators are
  taken from a `World`.
* A Go panic is `none`.
-/

namespace Casa

/-! ## Go values -/

/-- Go `map[string]string` (also used for the string-valued part of a viper
sub-tree): each key occurs at most once; the order of the list carries no
meaning. -/
abbrev StringMap := List (String × String)

namespace StringMap

/-- Go `len(m)`. -/
def len (m : StringMap) : Nat := m.length

/-- Go `_, ok := m[k]`: whether `k` is a key. -/
def hasKey (m : StringMap) (k : String) : Bool := m.any (fun e => e.1 == k)

/-- Go `v, ok := m[k]`: the value of `k`, when it is a key. -/
def get? (m : StringMap) (k : String) : Option String :=
  (m.find? (fun e => e.1 == k)).map (fun e => e.2)

/-- Go `m[k] = v`: overwrites the entry of `k` when there is one, adds one otherwise. -/
def set (m : StringMap) (k v : String) : StringMap :=
  if m.hasKey k then m.map (fun e => if e.1 == k then (k, v) else e) else (k, v) :: m

/-- Every key occurs at most once. -/
def WF (m : StringMap) : Prop := (m.map Prod.fst).Nodup

end StringMap

/-- The state of the `math/rand` source: an endless stream of raw draws and
the number of draws consumed so far. -/
structure Rand where
  draws : Nat → Nat
  pos : Nat

/-- Go `rand.Intn(n)`: panics for `n ≤ 0`, otherwise consumes one draw and returns
a value of `[0, n)`. -/
def Rand.Intn (r : Rand) (n : Nat) : Option (Nat × Rand) :=
  if n = 0 then none else some (r.draws r.pos % n, { r with pos := r.pos + 1 })

/-- Go `var letterRunes = []rune("abc...XYZ")`. -/
def letterRunes : List Char :=
  "abcdefghijklmnopqrstuvwxyzABCDEFGHIJKLMNOPQRSTUVWXYZ".toList

/-- The loop `for i := range b { b[i] = letterRunes[rand.Intn(len(letterRunes))] }`
over a slice of length `n`: the runes written, in index order. An index outside
`letterRunes` panics. -/
def fillRunes : Nat → Rand → Option (List Char × Rand)
  | 0, r => some ([], r)
  | n + 1, r =>
    match r.Intn letterRunes.length with
    | none => none
    | some (j, r1) =>
      match letterRunes[j]? with
      | none => none
      | some c =>
        match fillRunes n r1 with
        | none => none
        | some (cs, r2) => some (c :: cs, r2)

/-- Go `func getRand() string`. -/
def getRand (r : Rand) : Option (String × Rand) :=
  match r.Intn 15 with
  | none => none
  | some (n, r1) =>
    match fillRunes n r1 with
    | none => none
    | some (b, r2) => some (String.mk b, r2)

/-- The variables the credential block of `RunE` leaves behind. -/
structure Provisioned where
  users : StringMap
  serviceUser : String
  servicePass : String
  usingUsers : Bool
  rand : Rand

/-- Lines 84-92 of `RunE`: `users` is `viper.GetStringMapString("MQTT.Users")`. -/
def provision (users : StringMap) (r : Rand) : Option Provisioned :=
  if users.len > 0 then
    match getRand r with
    | none => none
    | some (serviceUser, r1) =>
      match getRand r1 with
      | none => none
      | some (servicePass, r2) =>
        some { users := users.set serviceUser servicePass
               serviceUser := serviceUser
               servicePass := servicePass
               usingUsers := true
               rand := r2 }
  else
    some { users := users, serviceUser := "", servicePass := "", usingUsers := false, rand := r }

/-! ## Collaborators -/

/-- A non-nil Go `error`: its dynamic type and its text. -/
structure GoError where
  dynType : String
  text : String
deriving DecidableEq, Repr

/-- The `case *net.OpError` arm of a type switch. -/
def GoError.isNetOpError (e : GoError) : Bool := e.dynType == "*net.OpError"

/-- Go `errors.Wrap(err, msg)`. -/
def GoError.wrap (e : GoError) (msg : String) : GoError :=
  { dynType := "*errors.withStack", text := msg ++ ": " ++ e.text }

/-- The signals `signal.Notify(c, os.Interrupt, syscall.SIGTERM)` delivers. -/
inductive Signal
  | interrupt
  | sigterm
deriving DecidableEq, Repr

/-- One argument of a variadic logger call. -/
inductive LogArg
  | str (s : String)
  | err (e : GoError)
  | sig (s : Signal)
deriving DecidableEq, Repr

/-- A registered `casa.Service` value (the handle only; what its methods
answer is in `World`). -/
structure Service where
  ident : Nat
deriving DecidableEq, Repr

/-- The `*viper.Viper` that `env.Sub` returns, as far as string keys go. -/
abbrev Config := StringMap

/-- Go `config.Set(key, value)`. -/
def Config.Set (c : Config) (key value : String) : Config := StringMap.set c key value

/-- A call on a collaborator, in program order. -/
inductive Event
  | log (args : List LogArg)
  | printf (format : String) (arg : LogArg)
  | useLogger (key : String) (svc : Service)
  | start (key : String) (svc : Service) (config : Config)
  | stop (key : String) (svc : Service)
  | close
  | exit (status : Int)
deriving DecidableEq, Repr

/-- What the `select` of the start loop observes for one `Start` call. -/
inductive StartResult
  /-- The goroutine sent the result of `Start` on the channel within the second. -/
  | inTime (err : Option GoError)
  /-- The timer of `time.After(1 * time.Second)` fired first; `eventual` is what
  the abandoned `Start` returns later, `none` when it never returns. -/
  | late (eventual : Option (Option GoError))
deriving DecidableEq, Repr

/-- The part of `environment.Env` the command reads. Go maps are given as the
list of entries in the order `range` yields them. -/
structure Environment where
  /-- Keys of `env.GetStringMap(name)`, in `range` order. -/
  GetStringMap : String → List String
  GetBool : String → Bool
  Sub : String → Config
  /-- Result of `env.GetService(key)`, `none` for a nil service. -/
  GetService : String → Option Service
  /-- Entries of `env.GetAllServices()`, in `range` order. -/
  GetAllServices : List (String × Service)

/-- The answers of the services and of the bus. -/
structure World where
  Start : String → Service → Config → StartResult
  Stop : String → Service → Option GoError
  Close : Option GoError

/-! ## The start loop (lines 142-177) -/

/-- The config handed to the service of `key`: lines 144-148. -/
def serviceConfig (env : Environment) (p : Provisioned) (key : String) : Config :=
  let config := env.Sub ("Services." ++ key)
  if p.usingUsers then
    (config.Set "MQTT.User" p.serviceUser).Set "MQTT.Pass" p.servicePass
  else config

/-- One iteration of `for key := range env.GetStringMap("Services")`. -/
def startBody (env : Environment) (w : World) (p : Provisioned) (key : String) : List Event :=
  if env.GetBool ("Services." ++ key ++ ".Enabled") then
    let config := serviceConfig env p key
    match env.GetService key with
    | none => [Event.log [LogArg.str ("Unsupported service: " ++ key)]]
    | some svc =>
      [Event.useLogger key svc,
       Event.log [LogArg.str ("Starting service: " ++ key)],
       Event.start key svc config] ++
      (match w.Start key svc config with
       | StartResult.inTime (some err) =>
         [Event.log [LogArg.str "Failed starting", LogArg.str key, LogArg.str "service"],
          Event.log [LogArg.err err]]
       | StartResult.inTime none =>
         [Event.log [LogArg.str key, LogArg.str "service started"]]
       | StartResult.late _ =>
         [Event.log [LogArg.str "Timeout while starting service"]])
  else []

/-- The loop over the given keys. -/
def startLoop (env : Environment) (w : World) (p : Provisioned) : List String → List Event
  | [] => []
  | key :: rest => startBody env w p key ++ startLoop env w p rest

/-- The whole start loop of `RunE`. -/
def startAll (env : Environment) (w : World) (p : Provisioned) : List Event :=
  startLoop env w p (env.GetStringMap "Services")

/-! ## The signal handler (lines 117-140) -/

/-- Trace and `status` while the handler runs. -/
structure Shutdown where
  trace : List Event
  status : Int

/-- One iteration of `for key, s := range env.GetAllServices()`. -/
def stopBody (env : Environment) (w : World) (st : Shutdown) (e : String × Service) : Shutdown :=
  if !env.GetBool ("Services." ++ e.1 ++ ".Enabled") then st
  else
    let tr := st.trace ++ [Event.log [LogArg.str "Stopping service", LogArg.str e.1], Event.stop e.1 e.2]
    match w.Stop e.1 e.2 with
    | some err =>
      { trace := tr ++ [Event.log [LogArg.str "Error stopping service", LogArg.str e.1,
                                   LogArg.str "::", LogArg.err err]]
        status := 1 }
    | none => { trace := tr, status := st.status }

/-- The `range` loop of the handler. -/
def stopLoop (env : Environment) (w : World) (st : Shutdown) (svcs : List (String × Service)) :
    Shutdown :=
  svcs.foldl (stopBody env w) st

/-- Go `err := env.MessageBus.Close()` and the `if` after it. -/
def closeBus (w : World) (st : Shutdown) : Shutdown :=
  let tr := st.trace ++ [Event.close]
  match w.Close with
  | some err => { trace := tr ++ [Event.log [LogArg.str "Error closing bus", LogArg.err err]], status := 1 }
  | none => { trace := tr, status := st.status }

/-- The goroutine of lines 117-140, from the receipt of `sig` to `os.Exit(status)`. -/
def signalHandler (env : Environment) (w : World) (sig : Signal) : Shutdown :=
  let st0 : Shutdown := { trace := [Event.log [LogArg.str "\nsignal: ", LogArg.sig sig]], status := 0 }
  let st1 := stopLoop env w st0 env.GetAllServices
  let st2 := closeBus w st1
  { trace := st2.trace ++ [Event.exit st2.status], status := st2.status }

/-! ## The broker logger (lines 202-250) -/

/-- Go `broker.LogEvent`. -/
abbrev LogEvent := Nat

/-- Go `broker.Client`; only its identity matters here. -/
structure Client where
  id : String
deriving DecidableEq, Repr

/-- Go `packet.Message`. -/
structure Message where
  topic : String
  payload : List Nat
deriving DecidableEq, Repr

/-- A non-nil `packet.Packet`: what `pkt.Type()` returns. -/
structure Packet where
  type : Nat
deriving DecidableEq, Repr

/-- Go `func (bl *brokerLogger) Log(event, client, pkt, message, err)`: the calls it
makes on the logger and on standard output. The constants of `broker` and
`packet` are numbered from `iota`; every arm of the two switches is empty. -/
def brokerLogger.Log (event : LogEvent) (_client : Option Client) (pkt : Option Packet)
    (_message : Option Message) (err : Option GoError) : List Event :=
  let out : List Event :=
    match err with
    | some e =>
      if e.isNetOpError then []
      else [Event.log [LogArg.str "New error encountered:"], Event.log [LogArg.err e],
            Event.printf "%#v\n" (LogArg.err e)]
    | none => []
  let out : List Event :=
    match event with
    | 0 => out -- broker.NewConnection
    | 1 => out -- broker.PacketReceived
    | 2 => out -- broker.MessagePublished
    | 3 => out -- broker.MessageForwarded
    | 4 => out -- broker.PacketSent
    | 5 => out -- broker.LostConnection
    | 6 => out -- broker.TransportError
    | 7 => out -- broker.SessionError
    | 8 => out -- broker.BackendError
    | 9 => out -- broker.ClientError
    | _ => out
  match pkt with
  | some q =>
    (match q.type with
     | 1 => out -- packet.CONNECT
     | 2 => out -- packet.CONNACK
     | 3 => out -- packet.PUBLISH
     | 4 => out -- packet.PUBACK
     | 5 => out -- packet.PUBREC
     | 6 => out -- packet.PUBREL
     | 7 => out -- packet.PUBCOMP
     | 8 => out -- packet.SUBSCRIBE
     | 9 => out -- packet.SUBACK
     | 10 => out -- packet.UNSUBSCRIBE
     | 11 => out -- packet.UNSUBACK
     | 12 => out -- packet.PINGREQ
     | 13 => out -- packet.PINGRESP
     | 14 => out -- packet.DISCONNECT
     | _ => out)
  | none => out

/-! ## `RunE` up to the idle loop -/

/-- What `RunE` reads besides the environment. -/
structure Settings where
  /-- Value of `viper.GetBool("MQTT.TLS.Enabled")`. -/
  tlsEnabled : Bool
  /-- The error of `tls.LoadX509KeyPair`. -/
  loadKeyPair : Option GoError
  /-- Value of `viper.GetStringMapString("MQTT.Users")`. -/
  users : StringMap
  /-- The error of `mqtt.New` for the user map it is given. -/
  mqttNew : StringMap → Option GoError

/-- How `RunE` ends. -/
inductive RunResult
  /-- The command returns this error. -/
  | failed (err : GoError)
  /-- A panic. -/
  | panicked
  /-- The command reached its idle loop `for`: the user map handed to
  `mqtt.Users` and the calls of the start loop. -/
  | running (busUsers : StringMap) (trace : List Event)

/-- Go `RunE` (lines 58-183), with the signal handler left to `signalHandler`. -/
def RunE (cfg : Settings) (env : Environment) (w : World) (r : Rand) : RunResult :=
  match (if cfg.tlsEnabled then cfg.loadKeyPair else none) with
  | some err => RunResult.failed (err.wrap "failed loading TLS certificate")
  | none =>
    match provision cfg.users r with
    | none => RunResult.panicked
    | some p =>
      match cfg.mqttNew p.users with
      | some err => RunResult.failed (err.wrap "Failed to create message bus")
      | none => RunResult.running p.users (startAll env w p)

/-! ## Projections of a trace -/

/-- The `(key, service)` of the `Stop` calls, in order. -/
def stopCalls (tr : List Event) : List (String × Service) :=
  tr.filterMap (fun ev => match ev with
    | Event.stop key svc => some (key, svc)
    | _ => none)

/-- The `(key, service, config)` of the `Start` calls, in order. -/
def startCalls (tr : List Event) : List (String × Service × Config) :=
  tr.filterMap (fun ev => match ev with
    | Event.start key svc config => some (key, svc, config)
    | _ => none)

/-- The entries written to the log sink, in order. -/
def logEntries (tr : List Event) : List (List LogArg) :=
  tr.filterMap (fun ev => match ev with
    | Event.log args => some args
    | _ => none)

/-- The flag `Services.<key>.Enabled`. -/
def enabled (env : Environment) (key : String) : Bool :=
  env.GetBool ("Services." ++ key ++ ".Enabled")

/-! ## Auxiliary definitions and scenarios -/

/-- Draws that make both random strings empty. -/
def zeroDraws : Nat → Nat := fun _ => 0

/-- Draws that make every random string fourteen runes long. -/
def fourteenDraws : Nat → Nat := fun _ => 14

/-- Draws under which the first random string is "a" and the second is empty:
`Intn(15) = 1`, `Intn(52) = 0`, `Intn(15) = 0`. -/
def collidingDraws : Nat → Nat := fun i => if i = 0 then 1 else 0

/-- The events one iteration of the stop loop appends. -/
def stopEvents (env : Environment) (w : World) (e : String × Service) : List Event :=
  if enabled env e.1 then
    [Event.log [LogArg.str "Stopping service", LogArg.str e.1], Event.stop e.1 e.2] ++
      (match w.Stop e.1 e.2 with
       | some err => [Event.log [LogArg.str "Error stopping service", LogArg.str e.1,
                                 LogArg.str "::", LogArg.err err]]
       | none => [])
  else []

/-- The events the stop loop appends over a list of entries. -/
def stopTrace (env : Environment) (w : World) : List (String × Service) → List Event
  | [] => []
  | e :: rest => stopEvents env w e ++ stopTrace env w rest

/-- Whether the entry is enabled and its `Stop` returns an error. -/
def stopFails (env : Environment) (w : World) (e : String × Service) : Bool :=
  enabled env e.1 && (w.Stop e.1 e.2).isSome

/-- Whether some enabled entry's `Stop` returns an error. -/
def anyStopError (env : Environment) (w : World) (svcs : List (String × Service)) : Bool :=
  svcs.any (stopFails env w)

/-- The events of `closeBus` after the `Close` call. -/
def closeLog (w : World) : List Event :=
  match w.Close with
  | some err => [Event.log [LogArg.str "Error closing bus", LogArg.err err]]
  | none => []

/-- The exit status in terms of the answers. -/
def exitStatus (env : Environment) (w : World) : Int :=
  if w.Close.isSome then 1 else if anyStopError env w env.GetAllServices then 1 else 0

/-- Two registered services, `alpha` and `beta`, both enabled; the configuration
enumerates `alpha` first, the registry `beta` first. -/
def swappedEnv : Environment :=
  { GetStringMap := fun name => if name == "Services" then ["alpha", "beta"] else []
    GetBool := fun _ => true
    Sub := fun _ => []
    GetService := fun key =>
      if key == "alpha" then some { ident := 1 }
      else if key == "beta" then some { ident := 2 } else none
    GetAllServices := [("beta", { ident := 2 }), ("alpha", { ident := 1 })] }

/-- Every `Start` returns nil at once, every `Stop` and the `Close` succeed. -/
def quietWorld : World :=
  { Start := fun _ _ _ => StartResult.inTime none
    Stop := fun _ _ => none
    Close := none }

/-- No internal credentials (the user map was empty). -/
def noCredentials : Provisioned :=
  { users := [], serviceUser := "", servicePass := "", usingUsers := false,
    rand := { draws := zeroDraws, pos := 0 } }

/-- Registered services `alpha` (enabled, `Stop` fails), `beta` (disabled) and
`gamma` (enabled). -/
def mixedEnv : Environment :=
  { GetStringMap := fun name => if name == "Services" then ["alpha", "beta", "gamma"] else []
    GetBool := fun name => name != "Services.beta.Enabled"
    Sub := fun _ => []
    GetService := fun key =>
      if key == "alpha" then some { ident := 1 }
      else if key == "beta" then some { ident := 2 }
      else if key == "gamma" then some { ident := 3 } else none
    GetAllServices := [("alpha", { ident := 1 }), ("beta", { ident := 2 }), ("gamma", { ident := 3 })] }

/-- The `Stop` of `alpha` returns an error; `Start` of `alpha` hangs. -/
def failingWorld : World :=
  { Start := fun key _ _ =>
      if key == "alpha" then StartResult.late none else StartResult.inTime none
    Stop := fun key _ =>
      if key == "alpha" then some { dynType := "*errors.errorString", text := "busy" } else none
    Close := none }

/-- The `Start` call the loop makes for `key`, when it makes one. -/
def startTarget (env : Environment) (p : Provisioned) (key : String) :
    Option (String × Service × Config) :=
  if enabled env key then
    (env.GetService key).map (fun svc => (key, svc, serviceConfig env p key))
  else none

/-- Whether the loop starts the service of `key`. -/
def startable (env : Environment) (key : String) : Bool :=
  enabled env key && (env.GetService key).isSome

/-- The `(key, service)` of the `UseLogger` calls, in order. -/
def useLoggerCalls (tr : List Event) : List (String × Service) :=
  tr.filterMap (fun ev => match ev with
    | Event.useLogger key svc => some (key, svc)
    | _ => none)

/-- Configuration keys `alpha`, `ghost`, `beta`, all enabled; the registry
resolves `alpha` and `beta` only. -/
def ghostEnv : Environment :=
  { GetStringMap := fun name => if name == "Services" then ["alpha", "ghost", "beta"] else []
    GetBool := fun _ => true
    Sub := fun _ => []
    GetService := fun key =>
      if key == "alpha" then some { ident := 1 }
      else if key == "beta" then some { ident := 2 } else none
    GetAllServices := [("alpha", { ident := 1 }), ("beta", { ident := 2 })] }

/-- The configuration enumerates `A` then `B`, both enabled and registered. -/
def abEnv : Environment :=
  { GetStringMap := fun name => if name == "Services" then ["A", "B"] else []
    GetBool := fun _ => true
    Sub := fun _ => []
    GetService := fun key =>
      if key == "A" then some { ident := 1 }
      else if key == "B" then some { ident := 2 } else none
    GetAllServices := [("A", { ident := 1 }), ("B", { ident := 2 })] }

/-- The `Start` of `A` returns nil at once; the `Start` of `B` returns nil after
two seconds, so nothing arrives within the second. -/
def slowBWorld : World :=
  { Start := fun key _ _ =>
      if key == "B" then StartResult.late (some none) else StartResult.inTime none
    Stop := fun _ _ => none
    Close := none }

/-- The log entries of one observed start outcome of the service of `key`. -/
def outcomeEntries (key : String) : StartResult → List (List LogArg)
  | StartResult.inTime none => [[LogArg.str key, LogArg.str "service started"]]
  | StartResult.inTime (some err) =>
    [[LogArg.str "Failed starting", LogArg.str key, LogArg.str "service"], [LogArg.err err]]
  | StartResult.late _ => [[LogArg.str "Timeout while starting service"]]

/-- The log entries of one iteration of the start loop. -/
def startLog (env : Environment) (w : World) (p : Provisioned) (key : String) :
    List (List LogArg) :=
  if enabled env key then
    match env.GetService key with
    | none => [[LogArg.str ("Unsupported service: " ++ key)]]
    | some svc =>
      [LogArg.str ("Starting service: " ++ key)] ::
        outcomeEntries key (w.Start key svc (serviceConfig env p key))
  else []

/-- The calls `brokerLogger.Log` makes for the error it is given. -/
def errorOutput : Option GoError → List Event
  | none => []
  | some e =>
    if e.isNetOpError then []
    else [Event.log [LogArg.str "New error encountered:"], Event.log [LogArg.err e],
          Event.printf "%#v\n" (LogArg.err e)]

/-! ## Lemmas -/

theorem StringMap.get?_set_self (m : StringMap) (k v : String) :
    (m.set k v).get? k = some v := by
  unfold StringMap.set
  by_cases h : m.hasKey k = true
  · rw [if_pos h]
    unfold StringMap.hasKey at h
    induction m with
    | nil => simp at h
    | cons e m ih =>
      by_cases hk : e.1 = k
      · simp [StringMap.get?, hk]
      · have h2 : m.any (fun e => e.1 == k) = true := by
          simpa [hk] using h
        have := ih h2
        simp only [StringMap.get?] at this ⊢
        simpa [hk] using this
  · rw [if_neg h]
    simp [StringMap.get?]

theorem StringMap.get?_set_ne (m : StringMap) (k v k' : String) (hne : k' ≠ k) :
    (m.set k v).get? k' = m.get? k' := by
  have hne2 : ¬ k = k' := fun h => hne h.symm
  unfold StringMap.set
  by_cases h : m.hasKey k = true
  · rw [if_pos h]
    clear h
    induction m with
    | nil => rfl
    | cons e m ih =>
      simp only [StringMap.get?] at ih ⊢
      by_cases hk : e.1 = k
      · have hk2 : ¬ e.1 = k' := by rw [hk]; exact hne2
        simpa [hk, hk2, hne2] using ih
      · have hb : (e.1 == k) = false := by simpa using hk
        simp only [List.map_cons, List.find?_cons, hb, Bool.false_eq_true, if_false]
        cases hk3 : (e.1 == k') with
        | true => rfl
        | false => simpa using ih
  · rw [if_neg h]
    simp [StringMap.get?, hne2]

theorem StringMap.len_set (m : StringMap) (k v : String) :
    (m.set k v).len = if m.hasKey k then m.len else m.len + 1 := by
  unfold StringMap.set StringMap.len
  by_cases h : m.hasKey k = true
  · rw [if_pos h, if_pos h]; simp
  · rw [if_neg h, if_neg h]; simp

theorem StringMap.keys_set_of_hasKey (m : StringMap) (k v : String) (h : m.hasKey k = true) :
    (m.set k v).map Prod.fst = m.map Prod.fst := by
  unfold StringMap.set
  rw [if_pos h]
  clear h
  induction m with
  | nil => rfl
  | cons e m ih =>
    by_cases hk : e.1 = k
    · simpa [hk] using ih
    · simpa [hk] using ih

theorem StringMap.hasKey_iff (m : StringMap) (k : String) :
    m.hasKey k = true ↔ k ∈ m.map Prod.fst := by
  unfold StringMap.hasKey
  simp only [List.any_eq_true, List.mem_map, beq_iff_eq]

theorem StringMap.WF_set (m : StringMap) (k v : String) (h : m.WF) : (m.set k v).WF := by
  unfold StringMap.WF at *
  by_cases hk : m.hasKey k = true
  · rw [StringMap.keys_set_of_hasKey m k v hk]; exact h
  · unfold StringMap.set
    rw [if_neg hk]
    simp only [List.map_cons, List.nodup_cons]
    exact ⟨fun hmem => hk ((StringMap.hasKey_iff m k).2 hmem), h⟩

theorem letterRunes_length : letterRunes.length = 52 := by decide

theorem fillRunes_some (n : Nat) (r : Rand) :
    ∃ cs r', fillRunes n r = some (cs, r') ∧ cs.length = n ∧
      (∀ c ∈ cs, c ∈ letterRunes) ∧ r'.draws = r.draws ∧ r'.pos = r.pos + n := by
  induction n generalizing r with
  | zero => exact ⟨[], r, rfl, rfl, by simp, rfl, rfl⟩
  | succ n ih =>
    have hlt : r.draws r.pos % letterRunes.length < letterRunes.length :=
      Nat.mod_lt _ (by rw [letterRunes_length]; decide)
    obtain ⟨cs, r', h1, h2, h3, h4, h5⟩ := ih { r with pos := r.pos + 1 }
    refine ⟨letterRunes[r.draws r.pos % letterRunes.length] :: cs, r', ?_, ?_, ?_, ?_, ?_⟩
    · have hne : ¬ letterRunes.length = 0 := by rw [letterRunes_length]; decide
      simp only [fillRunes, Rand.Intn, if_neg hne, List.getElem?_eq_getElem hlt, h1]
    · simp [h2]
    · intro c hc
      rcases List.mem_cons.1 hc with rfl | hc
      · exact List.getElem_mem hlt
      · exact h3 c hc
    · exact h4
    · rw [h5]; simp only []; omega

theorem getRand_some (r : Rand) :
    ∃ s r', getRand r = some (s, r') ∧ s.length = r.draws r.pos % 15 ∧
      (∀ c ∈ s.toList, c ∈ letterRunes) := by
  obtain ⟨cs, r', h1, h2, h3, _, _⟩ := fillRunes_some (r.draws r.pos % 15) { r with pos := r.pos + 1 }
  refine ⟨String.mk cs, r', ?_, ?_, ?_⟩
  · simp only [getRand, Rand.Intn]
    rw [if_neg (by decide)]
    simp only [h1]
  · simpa using h2
  · exact h3

theorem provision_of_nonempty (users : StringMap) (r : Rand) (hpos : 0 < users.len) :
    ∃ u pw r2, provision users r =
      some { users := users.set u pw, serviceUser := u, servicePass := pw,
             usingUsers := true, rand := r2 } := by
  obtain ⟨u, r1, hu, _, _⟩ := getRand_some r
  obtain ⟨pw, r2, hp, _, _⟩ := getRand_some r1
  exact ⟨u, pw, r2, by simp only [provision, if_pos hpos, hu, hp]⟩

theorem provision_of_empty (users : StringMap) (r : Rand) (hzero : users.len = 0) :
    provision users r =
      some { users := users, serviceUser := "", servicePass := "", usingUsers := false,
             rand := r } := by
  have : ¬ 0 < users.len := by omega
  simp only [provision, if_neg this]

theorem stopBody_trace (env : Environment) (w : World) (st : Shutdown) (e : String × Service) :
    (stopBody env w st e).trace = st.trace ++ stopEvents env w e := by
  unfold stopBody stopEvents enabled
  cases hen : env.GetBool ("Services." ++ e.1 ++ ".Enabled") with
  | false => simp
  | true =>
    cases hs : w.Stop e.1 e.2 with
    | none => simp
    | some err => simp

theorem stopBody_status (env : Environment) (w : World) (st : Shutdown) (e : String × Service) :
    (stopBody env w st e).status =
      if stopFails env w e = true then 1 else st.status := by
  unfold stopBody stopFails enabled
  cases hen : env.GetBool ("Services." ++ e.1 ++ ".Enabled") with
  | false => simp
  | true =>
    cases hs : w.Stop e.1 e.2 with
    | none => simp
    | some err => simp

theorem stopLoop_trace (env : Environment) (w : World) (st : Shutdown)
    (svcs : List (String × Service)) :
    (stopLoop env w st svcs).trace = st.trace ++ stopTrace env w svcs := by
  induction svcs generalizing st with
  | nil => simp [stopLoop, stopTrace]
  | cons e rest ih =>
    have := ih (stopBody env w st e)
    simp only [stopLoop, List.foldl_cons] at this ⊢
    rw [this, stopBody_trace, stopTrace, List.append_assoc]

theorem stopLoop_status (env : Environment) (w : World) (st : Shutdown)
    (svcs : List (String × Service)) :
    (stopLoop env w st svcs).status = if anyStopError env w svcs = true then 1 else st.status := by
  induction svcs generalizing st with
  | nil => simp [stopLoop, anyStopError]
  | cons e rest ih =>
    have := ih (stopBody env w st e)
    simp only [stopLoop, List.foldl_cons] at this ⊢
    rw [this, stopBody_status]
    unfold anyStopError
    simp only [List.any_cons]
    by_cases h1 : stopFails env w e = true
    · by_cases h2 : rest.any (stopFails env w) = true
      · rw [if_pos h2, if_pos (by simp [h1])]
      · rw [if_neg h2, if_pos h1, if_pos (by simp [h1])]
    · by_cases h2 : rest.any (stopFails env w) = true
      · rw [if_pos h2, if_pos (by simp [h2])]
      · rw [if_neg h2, if_neg h1, if_neg (by simp [h1, h2])]

theorem stopCalls_stopTrace (env : Environment) (w : World) (svcs : List (String × Service)) :
    stopCalls (stopTrace env w svcs) = svcs.filter (fun e => enabled env e.1) := by
  induction svcs with
  | nil => rfl
  | cons e rest ih =>
    unfold stopCalls at ih ⊢
    rw [stopTrace, List.filterMap_append, ih]
    unfold stopEvents
    cases hen : enabled env e.1 with
    | false => simp [hen]
    | true =>
      cases hs : w.Stop e.1 e.2 with
      | none => simp [hen]
      | some err => simp [hen]

theorem close_not_mem_stopTrace (env : Environment) (w : World) (svcs : List (String × Service)) :
    Event.close ∉ stopTrace env w svcs := by
  induction svcs with
  | nil => simp [stopTrace]
  | cons e rest ih =>
    rw [stopTrace, List.mem_append]
    rintro (h | h)
    · unfold stopEvents at h
      cases hen : enabled env e.1 with
      | false => simp [hen] at h
      | true =>
        cases hs : w.Stop e.1 e.2 with
        | none => simp [hen, hs] at h
        | some err => simp [hen, hs] at h
    · exact ih h

theorem signalHandler_status (env : Environment) (w : World) (sig : Signal) :
    (signalHandler env w sig).status = exitStatus env w := by
  simp only [signalHandler, closeBus, exitStatus]
  cases hc : w.Close with
  | some err => simp
  | none => simp [stopLoop_status]

theorem signalHandler_trace (env : Environment) (w : World) (sig : Signal) :
    (signalHandler env w sig).trace =
      (Event.log [LogArg.str "\nsignal: ", LogArg.sig sig] :: stopTrace env w env.GetAllServices) ++
        Event.close :: (closeLog w ++ [Event.exit (exitStatus env w)]) := by
  have hst := signalHandler_status env w sig
  simp only [signalHandler, closeBus, closeLog] at hst ⊢
  rw [← hst]
  cases hc : w.Close with
  | some err => simp [stopLoop_trace]
  | none => simp [stopLoop_trace]

theorem mem_stopCalls_iff (tr : List Event) (key : String) (svc : Service) :
    (key, svc) ∈ stopCalls tr ↔ Event.stop key svc ∈ tr := by
  unfold stopCalls
  rw [List.mem_filterMap]
  constructor
  · rintro ⟨ev, hev, h⟩
    cases ev <;> simp at h
    obtain ⟨rfl, rfl⟩ := h
    exact hev
  · intro h
    exact ⟨Event.stop key svc, h, rfl⟩

theorem stopCalls_append (a b : List Event) : stopCalls (a ++ b) = stopCalls a ++ stopCalls b := by
  unfold stopCalls
  exact List.filterMap_append a b _

theorem stopCalls_closeLog (w : World) (status : Int) :
    stopCalls (closeLog w ++ [Event.exit status]) = [] := by
  unfold closeLog stopCalls
  cases w.Close <;> rfl

theorem close_not_mem_closeLog (w : World) (status : Int) :
    Event.close ∉ closeLog w ++ [Event.exit status] := by
  unfold closeLog
  cases w.Close <;> simp

theorem anyStopError_iff (env : Environment) (w : World) (svcs : List (String × Service)) :
    anyStopError env w svcs = true ↔
      ∃ e ∈ svcs, enabled env e.1 = true ∧ w.Stop e.1 e.2 ≠ none := by
  unfold anyStopError stopFails
  rw [List.any_eq_true]
  constructor
  · rintro ⟨e, he, h⟩
    rw [Bool.and_eq_true] at h
    exact ⟨e, he, h.1, by intro hn; rw [hn] at h; simp at h⟩
  · rintro ⟨e, he, h1, h2⟩
    refine ⟨e, he, ?_⟩
    rw [Bool.and_eq_true]
    refine ⟨h1, ?_⟩
    cases hs : w.Stop e.1 e.2 with
    | none => exact absurd hs h2
    | some err => rfl

theorem exitStatus_eq_one_iff (env : Environment) (w : World) :
    exitStatus env w = 1 ↔
      ((∃ e ∈ env.GetAllServices, enabled env e.1 = true ∧ w.Stop e.1 e.2 ≠ none) ∨
        w.Close ≠ none) := by
  rw [← anyStopError_iff]
  unfold exitStatus
  cases hc : w.Close with
  | some err => simp
  | none =>
    cases ha : anyStopError env w env.GetAllServices <;> simp

theorem exitStatus_zero_or_one (env : Environment) (w : World) :
    exitStatus env w = 0 ∨ exitStatus env w = 1 := by
  unfold exitStatus
  cases w.Close <;> cases anyStopError env w env.GetAllServices <;> simp

theorem stopCalls_signalHandler (env : Environment) (w : World) (sig : Signal) :
    stopCalls (signalHandler env w sig).trace =
      env.GetAllServices.filter (fun e => enabled env e.1) := by
  rw [signalHandler_trace, stopCalls_append]
  have h1 : stopCalls (Event.log [LogArg.str "\nsignal: ", LogArg.sig sig] ::
      stopTrace env w env.GetAllServices) = stopCalls (stopTrace env w env.GetAllServices) := rfl
  have h2 : stopCalls (Event.close :: (closeLog w ++ [Event.exit (exitStatus env w)])) =
      stopCalls (closeLog w ++ [Event.exit (exitStatus env w)]) := rfl
  rw [h1, h2, stopCalls_stopTrace, stopCalls_closeLog, List.append_nil]

theorem count_close_signalHandler (env : Environment) (w : World) (sig : Signal) :
    (signalHandler env w sig).trace.count Event.close = 1 := by
  rw [signalHandler_trace, List.count_append, List.count_cons, List.count_cons,
    List.count_eq_zero_of_not_mem (close_not_mem_stopTrace env w env.GetAllServices),
    List.count_eq_zero_of_not_mem (close_not_mem_closeLog w (exitStatus env w))]
  simp

theorem count_key_filter_enabled (env : Environment) (svcs : List (String × Service))
    (hkeys : (svcs.map Prod.fst).Nodup) (e : String × Service) (he : e ∈ svcs) :
    ((svcs.filter (fun e => enabled env e.1)).map Prod.fst).count e.1 =
      if enabled env e.1 = true then 1 else 0 := by
  have hfm : (svcs.filter (fun e => enabled env e.1)).map Prod.fst =
      (svcs.map Prod.fst).filter (enabled env) := by
    rw [List.filter_map]; rfl
  rw [hfm, List.count_eq_of_nodup (hkeys.filter _)]
  have hmem : e.1 ∈ svcs.map Prod.fst := List.mem_map_of_mem Prod.fst he
  by_cases hen : enabled env e.1 = true
  · rw [if_pos hen, if_pos (List.mem_filter.2 ⟨hmem, hen⟩)]
  · rw [if_neg hen, if_neg (fun h => hen (List.mem_filter.1 h).2)]

theorem startLoop_append (env : Environment) (w : World) (p : Provisioned) (ks1 ks2 : List String) :
    startLoop env w p (ks1 ++ ks2) = startLoop env w p ks1 ++ startLoop env w p ks2 := by
  induction ks1 with
  | nil => rfl
  | cons key rest ih =>
    show startLoop env w p (key :: (rest ++ ks2)) = _
    rw [startLoop, ih, startLoop, List.append_assoc]

theorem mem_startLoop (env : Environment) (w : World) (p : Provisioned) (keys : List String)
    (ev : Event) : ev ∈ startLoop env w p keys ↔ ∃ key ∈ keys, ev ∈ startBody env w p key := by
  induction keys with
  | nil => simp [startLoop]
  | cons key rest ih => simp [startLoop, ih]

theorem startCalls_startBody (env : Environment) (w : World) (p : Provisioned) (key : String) :
    startCalls (startBody env w p key) = (startTarget env p key).toList := by
  unfold startBody startTarget startCalls enabled
  cases hen : env.GetBool ("Services." ++ key ++ ".Enabled") with
  | false => simp
  | true =>
    cases hs : env.GetService key with
    | none => simp
    | some svc =>
      simp only [if_true, Option.map_some', Option.toList_some]
      cases w.Start key svc (serviceConfig env p key) with
      | inTime err => cases err <;> rfl
      | late x => rfl

theorem startCalls_startLoop (env : Environment) (w : World) (p : Provisioned)
    (keys : List String) :
    startCalls (startLoop env w p keys) = keys.filterMap (startTarget env p) := by
  induction keys with
  | nil => rfl
  | cons key rest ih =>
    have happ : startCalls (startBody env w p key ++ startLoop env w p rest) =
        startCalls (startBody env w p key) ++ startCalls (startLoop env w p rest) := by
      unfold startCalls
      exact List.filterMap_append _ _ _
    rw [startLoop, happ, ih, startCalls_startBody]
    cases h : startTarget env p key with
    | none => simp [List.filterMap_cons, h]
    | some t => simp [List.filterMap_cons, h]

theorem startKeys_startLoop (env : Environment) (w : World) (p : Provisioned)
    (keys : List String) :
    (startCalls (startLoop env w p keys)).map (fun c => c.1) = keys.filter (startable env) := by
  rw [startCalls_startLoop]
  induction keys with
  | nil => rfl
  | cons key rest ih =>
    unfold startTarget startable at ih ⊢
    cases hen : enabled env key with
    | false => simpa [List.filterMap_cons, List.filter_cons, hen] using ih
    | true =>
      cases hs : env.GetService key with
      | none => simpa [List.filterMap_cons, List.filter_cons, hen, hs] using ih
      | some svc => simpa [List.filterMap_cons, List.filter_cons, hen, hs] using ih

theorem mem_startCalls_iff (tr : List Event) (key : String) (svc : Service) (c : Config) :
    (key, svc, c) ∈ startCalls tr ↔ Event.start key svc c ∈ tr := by
  unfold startCalls
  rw [List.mem_filterMap]
  constructor
  · rintro ⟨ev, hev, h⟩
    cases ev <;> simp at h
    obtain ⟨rfl, rfl, rfl⟩ := h
    exact hev
  · intro h
    exact ⟨Event.start key svc c, h, rfl⟩

theorem start_mem_startLoop_iff (env : Environment) (w : World) (p : Provisioned)
    (keys : List String) (key : String) (svc : Service) (c : Config) :
    Event.start key svc c ∈ startLoop env w p keys ↔
      key ∈ keys ∧ enabled env key = true ∧ env.GetService key = some svc ∧
        c = serviceConfig env p key := by
  rw [← mem_startCalls_iff, startCalls_startLoop, List.mem_filterMap]
  unfold startTarget
  constructor
  · rintro ⟨k, hk, h⟩
    cases hen : enabled env k with
    | false => simp [hen] at h
    | true =>
      cases hs : env.GetService k with
      | none => simp [hen, hs] at h
      | some s =>
        simp only [hen, hs, if_true, Option.map_some', Option.some.injEq, Prod.mk.injEq] at h
        obtain ⟨rfl, rfl, rfl⟩ := h
        exact ⟨hk, hen, hs, rfl⟩
  · rintro ⟨hk, hen, hs, rfl⟩
    exact ⟨key, hk, by simp [hen, hs]⟩

theorem mem_useLoggerCalls_iff (tr : List Event) (key : String) (svc : Service) :
    (key, svc) ∈ useLoggerCalls tr ↔ Event.useLogger key svc ∈ tr := by
  unfold useLoggerCalls
  rw [List.mem_filterMap]
  constructor
  · rintro ⟨ev, hev, h⟩
    cases ev <;> simp at h
    obtain ⟨rfl, rfl⟩ := h
    exact hev
  · intro h
    exact ⟨Event.useLogger key svc, h, rfl⟩

theorem useLoggerCalls_startBody (env : Environment) (w : World) (p : Provisioned) (key : String) :
    useLoggerCalls (startBody env w p key) =
      ((startTarget env p key).map (fun t => (t.1, t.2.1))).toList := by
  unfold startBody startTarget useLoggerCalls enabled
  cases hen : env.GetBool ("Services." ++ key ++ ".Enabled") with
  | false => simp
  | true =>
    cases hs : env.GetService key with
    | none => simp
    | some svc =>
      simp only [if_true, Option.map_some', Option.toList_some]
      cases w.Start key svc (serviceConfig env p key) with
      | inTime err => cases err <;> rfl
      | late x => rfl

theorem useLogger_mem_startLoop_iff (env : Environment) (w : World) (p : Provisioned)
    (keys : List String) (key : String) (svc : Service) :
    Event.useLogger key svc ∈ startLoop env w p keys ↔
      key ∈ keys ∧ enabled env key = true ∧ env.GetService key = some svc := by
  rw [mem_startLoop]
  constructor
  · rintro ⟨k, hk, h⟩
    rw [← mem_useLoggerCalls_iff, useLoggerCalls_startBody] at h
    unfold startTarget at h
    cases hen : enabled env k with
    | false => simp [hen] at h
    | true =>
      cases hs : env.GetService k with
      | none => simp [hen, hs] at h
      | some s =>
        simp only [hen, hs, if_true, Option.map_some', Option.toList_some, List.mem_singleton,
          Prod.mk.injEq] at h
        obtain ⟨rfl, rfl⟩ := h
        exact ⟨hk, hen, hs⟩
  · rintro ⟨hk, hen, hs⟩
    refine ⟨key, hk, ?_⟩
    rw [← mem_useLoggerCalls_iff, useLoggerCalls_startBody]
    unfold startTarget
    simp [hen, hs]

theorem logEntries_startBody (env : Environment) (w : World) (p : Provisioned) (key : String) :
    logEntries (startBody env w p key) = startLog env w p key := by
  unfold startBody startLog logEntries enabled
  cases hen : env.GetBool ("Services." ++ key ++ ".Enabled") with
  | false => simp
  | true =>
    cases hs : env.GetService key with
    | none => simp
    | some svc =>
      simp only [if_true]
      cases w.Start key svc (serviceConfig env p key) with
      | inTime err => cases err <;> rfl
      | late x => rfl

theorem logEntries_startLoop (env : Environment) (w : World) (p : Provisioned)
    (keys : List String) :
    logEntries (startLoop env w p keys) = keys.flatMap (startLog env w p) := by
  induction keys with
  | nil => rfl
  | cons key rest ih =>
    have happ : logEntries (startBody env w p key ++ startLoop env w p rest) =
        logEntries (startBody env w p key) ++ logEntries (startLoop env w p rest) := by
      unfold logEntries
      exact List.filterMap_append _ _ _
    rw [startLoop, happ, ih, logEntries_startBody, List.flatMap_cons]

theorem brokerLogger_Log_eq (event : LogEvent) (client : Option Client) (pkt : Option Packet)
    (message : Option Message) (err : Option GoError) :
    brokerLogger.Log event client pkt message err = errorOutput err := by
  have hev : ∀ out : List Event, (match event with
      | 0 => out | 1 => out | 2 => out | 3 => out | 4 => out | 5 => out
      | 6 => out | 7 => out | 8 => out | 9 => out | _ => out) = out := by
    intro out; split <;> rfl
  have hpk : ∀ (n : Nat) (out : List Event), (match n with
      | 1 => out | 2 => out | 3 => out | 4 => out | 5 => out | 6 => out | 7 => out
      | 8 => out | 9 => out | 10 => out | 11 => out | 12 => out | 13 => out | 14 => out
      | _ => out) = out := by
    intro n out; split <;> rfl
  unfold brokerLogger.Log
  simp only [hev]
  cases pkt with
  | none => cases err <;> rfl
  | some q => simp only [hpk]; cases err <;> rfl

/-! ## Properties of the server command -/

/-- C2: for every state of the random source `getRand` returns (it does not
panic: the index drawn with `Intn(len(letterRunes))` is inside `letterRunes`,
which has 52 runes), the string has between 0 and 14 runes, each of them a rune
of `letterRunes` and so one of a-z, A-Z; length 0 and length 14 both occur. -/
theorem getRand_length_and_alphabet (r : Rand) :
    (∃ s r', getRand r = some (s, r') ∧ s.length ≤ 14 ∧
      ∀ c ∈ s.toList, c ∈ letterRunes ∧ (('a' ≤ c ∧ c ≤ 'z') ∨ ('A' ≤ c ∧ c ≤ 'Z'))) ∧
    (∃ j r', r.Intn letterRunes.length = some (j, r') ∧ j < letterRunes.length ∧
      letterRunes[j]? ≠ none) ∧
    letterRunes.length = 52 ∧
    (∃ s r', getRand { draws := zeroDraws, pos := 0 } = some (s, r') ∧ s.length = 0) ∧
    (∃ s r', getRand { draws := fourteenDraws, pos := 0 } = some (s, r') ∧ s.length = 14) := by
  have hletters : ∀ c ∈ letterRunes, ('a' ≤ c ∧ c ≤ 'z') ∨ ('A' ≤ c ∧ c ≤ 'Z') := by decide
  refine ⟨?_, ?_, letterRunes_length, ?_, ?_⟩
  · obtain ⟨s, r', h1, h2, h3⟩ := getRand_some r
    refine ⟨s, r', h1, ?_, fun c hc => ⟨h3 c hc, hletters c (h3 c hc)⟩⟩
    rw [h2]
    have := Nat.mod_lt (r.draws r.pos) (show 0 < 15 by decide)
    omega
  · have hlt : r.draws r.pos % letterRunes.length < letterRunes.length :=
      Nat.mod_lt _ (by rw [letterRunes_length]; decide)
    have hne : ¬ letterRunes.length = 0 := by rw [letterRunes_length]; decide
    refine ⟨r.draws r.pos % letterRunes.length, { r with pos := r.pos + 1 }, ?_, hlt, ?_⟩
    · simp only [Rand.Intn, if_neg hne]
    · rw [List.getElem?_eq_getElem hlt]; simp
  · obtain ⟨s, r', h1, h2, _⟩ := getRand_some { draws := zeroDraws, pos := 0 }
    exact ⟨s, r', h1, h2⟩
  · obtain ⟨s, r', h1, h2, _⟩ := getRand_some { draws := fourteenDraws, pos := 0 }
    exact ⟨s, r', h1, h2⟩

/-- C1 as stated fails: with the operator's map `a -> secret` and draws that make
the generated user name "a", the map keeps one entry (the operator's password is
overwritten) and the key "a" was a key before. -/
theorem provision_collision_counterexample :
    0 < StringMap.len [("a", "secret")] ∧
    (provision [("a", "secret")] { draws := collidingDraws, pos := 0 }).map
        (fun p => (p.users, p.serviceUser, p.servicePass, p.usingUsers)) =
      some ([("a", "")], "a", "", true) ∧
    StringMap.hasKey [("a", "secret")] "a" = true ∧
    StringMap.len [("a", "")] ≠ StringMap.len [("a", "secret")] + 1 := by
  refine ⟨by decide, ?_, by decide, by decide⟩
  rfl

/-- C1 (amended): for a non-empty map and every state of the random source the
block returns with `usingUsers = true` and the map is the old one with
`users[serviceUser] = servicePass` written: every other key keeps its value; the
map has one more entry when `serviceUser` was not a key before and as many
entries as before (that key's value overwritten) when it was. For an empty map
the map is unchanged, no draw is consumed, the credentials stay empty and
`usingUsers = false`. -/
theorem provision_effect (users : StringMap) (r : Rand) :
    (0 < users.len →
      ∃ p, provision users r = some p ∧ p.usingUsers = true ∧
        p.users = users.set p.serviceUser p.servicePass ∧
        p.users.get? p.serviceUser = some p.servicePass ∧
        (∀ k, k ≠ p.serviceUser → p.users.get? k = users.get? k) ∧
        (users.hasKey p.serviceUser = false → p.users.len = users.len + 1) ∧
        (users.hasKey p.serviceUser = true → p.users.len = users.len) ∧
        (users.WF → p.users.WF)) ∧
    (users.len = 0 →
      ∃ p, provision users r = some p ∧ p.usingUsers = false ∧ p.users = users ∧
        p.serviceUser = "" ∧ p.servicePass = "" ∧
        p.rand.pos = r.pos ∧ p.rand.draws = r.draws) := by
  constructor
  · intro hpos
    obtain ⟨u, pw, r2, hp⟩ := provision_of_nonempty users r hpos
    refine ⟨_, hp, rfl, rfl, ?_, ?_, ?_, ?_, ?_⟩
    · exact StringMap.get?_set_self users u pw
    · intro k hk
      exact StringMap.get?_set_ne users u pw k hk
    · intro hk
      simp only [StringMap.len_set, hk]
      simp
    · intro hk
      simp only [StringMap.len_set, hk]
      simp
    · exact StringMap.WF_set users u pw
  · intro hzero
    exact ⟨_, provision_of_empty users r hzero, rfl, rfl, rfl, rfl, rfl, rfl⟩

/-- The amended C1 at the map `bob -> pw` with every draw equal to 1: the
generated pair is ("b", "b") and the map gets a second entry. -/
theorem provision_effect_witness :
    0 < StringMap.len [("bob", "pw")] ∧
    ∃ p, provision [("bob", "pw")] { draws := fun _ => 1, pos := 0 } = some p ∧
      p.usingUsers = true ∧
      p.users = StringMap.set [("bob", "pw")] p.serviceUser p.servicePass ∧
      p.users.get? p.serviceUser = some p.servicePass ∧
      (∀ k, k ≠ p.serviceUser → p.users.get? k = StringMap.get? [("bob", "pw")] k) ∧
      (StringMap.hasKey [("bob", "pw")] p.serviceUser = false →
        p.users.len = StringMap.len [("bob", "pw")] + 1) ∧
      (StringMap.hasKey [("bob", "pw")] p.serviceUser = true →
        p.users.len = StringMap.len [("bob", "pw")]) ∧
      (StringMap.WF [("bob", "pw")] → p.users.WF) :=
  ⟨by decide, (provision_effect [("bob", "pw")] { draws := fun _ => 1, pos := 0 }).1 (by decide)⟩

/-- C3: the exit status of the signal handler is 1 exactly when the `Stop` of an
enabled registered service returned an error or `Close` returned an error, and 0
exactly when neither did; it is the status passed to `os.Exit`; with no service
and a successful `Close` the handler logs the signal, calls `Close` and exits 0. -/
theorem shutdown_status (env : Environment) (w : World) (sig : Signal) :
    ((signalHandler env w sig).status = 1 ↔
      ((∃ e ∈ env.GetAllServices, enabled env e.1 = true ∧ w.Stop e.1 e.2 ≠ none) ∨
        w.Close ≠ none)) ∧
    ((signalHandler env w sig).status = 0 ↔
      ¬ ((∃ e ∈ env.GetAllServices, enabled env e.1 = true ∧ w.Stop e.1 e.2 ≠ none) ∨
        w.Close ≠ none)) ∧
    (signalHandler env w sig).trace.getLast? =
      some (Event.exit (signalHandler env w sig).status) ∧
    (signalHandler { env with GetAllServices := [] } { w with Close := none } sig).trace =
      [Event.log [LogArg.str "\nsignal: ", LogArg.sig sig], Event.close, Event.exit 0] ∧
    (signalHandler { env with GetAllServices := [] } { w with Close := none } sig).status = 0 := by
  refine ⟨?_, ?_, ?_, rfl, rfl⟩
  · rw [signalHandler_status]; exact exitStatus_eq_one_iff env w
  · rw [signalHandler_status, ← exitStatus_eq_one_iff]
    rcases exitStatus_zero_or_one env w with h | h
    · rw [h]; simp
    · rw [h]; simp
  · rw [signalHandler_status, signalHandler_trace]
    have hassoc : (Event.log [LogArg.str "\nsignal: ", LogArg.sig sig] ::
          stopTrace env w env.GetAllServices) ++
          Event.close :: (closeLog w ++ [Event.exit (exitStatus env w)]) =
        ((Event.log [LogArg.str "\nsignal: ", LogArg.sig sig] ::
          stopTrace env w env.GetAllServices) ++ Event.close :: closeLog w) ++
          [Event.exit (exitStatus env w)] := by simp
    rw [hassoc, List.getLast?_concat]

/-- C4: on shutdown, whatever the answers of the services (to `Start` earlier, to
`Stop` now) and of the bus are, `Stop` is called on exactly the registered
services whose `Enabled` flag is true, once each, and on no service whose flag is
false; `Close` is called exactly once; when the `Stop` of an enabled service
returns an error the other calls are made all the same and the status is 1. -/
theorem shutdown_stops_enabled_services (env : Environment) (w : World) (sig : Signal)
    (hkeys : (env.GetAllServices.map Prod.fst).Nodup) :
    stopCalls (signalHandler env w sig).trace =
      env.GetAllServices.filter (fun e => enabled env e.1) ∧
    (∀ e ∈ env.GetAllServices,
      ((stopCalls (signalHandler env w sig).trace).map Prod.fst).count e.1 =
        if enabled env e.1 = true then 1 else 0) ∧
    (∀ key svc, enabled env key = false → Event.stop key svc ∉ (signalHandler env w sig).trace) ∧
    (signalHandler env w sig).trace.count Event.close = 1 ∧
    (∀ w', stopCalls (signalHandler env w' sig).trace = stopCalls (signalHandler env w sig).trace ∧
      (signalHandler env w' sig).trace.count Event.close = 1) ∧
    ((∃ e ∈ env.GetAllServices, enabled env e.1 = true ∧ w.Stop e.1 e.2 ≠ none) →
      (signalHandler env w sig).status = 1) := by
  refine ⟨stopCalls_signalHandler env w sig, ?_, ?_, count_close_signalHandler env w sig, ?_, ?_⟩
  · intro e he
    rw [stopCalls_signalHandler]
    exact count_key_filter_enabled env env.GetAllServices hkeys e he
  · intro key svc hen hmem
    rw [← mem_stopCalls_iff, stopCalls_signalHandler, List.mem_filter] at hmem
    rw [hen] at hmem
    exact Bool.false_ne_true hmem.2
  · intro w'
    rw [stopCalls_signalHandler, stopCalls_signalHandler]
    exact ⟨rfl, count_close_signalHandler env w' sig⟩
  · intro h
    rw [signalHandler_status]
    exact (exitStatus_eq_one_iff env w).2 (Or.inl h)

/-- C4 at `mixedEnv` and `failingWorld`: `alpha` (whose `Start` hung and whose
`Stop` fails) and `gamma` are stopped, `beta` is not, the bus is closed once and
the status is 1. -/
theorem shutdown_stops_enabled_services_witness :
    (mixedEnv.GetAllServices.map Prod.fst).Nodup ∧
    stopCalls (signalHandler mixedEnv failingWorld Signal.sigterm).trace =
      [("alpha", { ident := 1 }), ("gamma", { ident := 3 })] ∧
    (signalHandler mixedEnv failingWorld Signal.sigterm).trace.count Event.close = 1 ∧
    (signalHandler mixedEnv failingWorld Signal.sigterm).status = 1 :=
  have h := shutdown_stops_enabled_services mixedEnv failingWorld Signal.sigterm (by decide)
  ⟨by decide, h.1.trans (by decide), h.2.2.2.1,
    h.2.2.2.2.2 ⟨("alpha", { ident := 1 }), by decide, by decide, by decide⟩⟩

/-- C9 as stated fails: the configuration enumerates `alpha` before `beta` (the
order in which the start loop starts them), the registry enumerates `beta`
first, and the handler stops `beta` before `alpha`. -/
theorem shutdown_order_counterexample :
    (startCalls (startAll swappedEnv quietWorld noCredentials)).map (fun c => c.1) =
      ["alpha", "beta"] ∧
    (swappedEnv.GetStringMap "Services").filter (enabled swappedEnv) = ["alpha", "beta"] ∧
    (stopCalls (signalHandler swappedEnv quietWorld Signal.sigterm).trace).map Prod.fst =
      ["beta", "alpha"] ∧
    (stopCalls (signalHandler swappedEnv quietWorld Signal.sigterm).trace).map Prod.fst ≠
      (swappedEnv.GetStringMap "Services").filter (enabled swappedEnv) := by
  decide

/-- C9 (amended): the handler's calls are in a fixed order: the `Stop` calls of
the enabled services in the order `env.GetAllServices()` enumerates the registry
(not the order of the `Services` configuration keys), then the one `Close` call,
after which no `Stop` is called. -/
theorem shutdown_order (env : Environment) (w : World) (sig : Signal) :
    ∃ pre post, (signalHandler env w sig).trace = pre ++ Event.close :: post ∧
      stopCalls pre = env.GetAllServices.filter (fun e => enabled env e.1) ∧
      stopCalls post = [] ∧ Event.close ∉ pre ∧ Event.close ∉ post := by
  refine ⟨Event.log [LogArg.str "\nsignal: ", LogArg.sig sig] :: stopTrace env w env.GetAllServices,
    closeLog w ++ [Event.exit (exitStatus env w)], signalHandler_trace env w sig, ?_,
    stopCalls_closeLog w _, ?_, close_not_mem_closeLog w _⟩
  · exact stopCalls_stopTrace env w env.GetAllServices
  · intro h
    rcases List.mem_cons.1 h with h | h
    · cases h
    · exact close_not_mem_stopTrace env w env.GetAllServices h

/-- C5: an enabled configuration key that `GetService` does not resolve gets the
log entry "Unsupported service: <key>", no `UseLogger` and no `Start` call, and
the loop goes on: every enabled key that the registry resolves gets its
`UseLogger` and `Start` calls. -/
theorem unsupported_service_is_skipped (env : Environment) (w : World) (p : Provisioned)
    (key : String) (hmem : key ∈ env.GetStringMap "Services")
    (hen : enabled env key = true) (hnil : env.GetService key = none) :
    Event.log [LogArg.str ("Unsupported service: " ++ key)] ∈ startAll env w p ∧
    (∀ svc, Event.useLogger key svc ∉ startAll env w p) ∧
    (∀ svc c, Event.start key svc c ∉ startAll env w p) ∧
    (∀ other svc, other ∈ env.GetStringMap "Services" → enabled env other = true →
      env.GetService other = some svc →
      Event.useLogger other svc ∈ startAll env w p ∧
      Event.start other svc (serviceConfig env p other) ∈ startAll env w p) := by
  unfold startAll
  refine ⟨?_, ?_, ?_, ?_⟩
  · rw [mem_startLoop]
    refine ⟨key, hmem, ?_⟩
    unfold enabled at hen
    simp [startBody, hen, hnil]
  · intro svc h
    rw [useLogger_mem_startLoop_iff, hnil] at h
    cases h.2.2
  · intro svc c h
    rw [start_mem_startLoop_iff, hnil] at h
    cases h.2.2.1
  · intro other svc ho heo hso
    exact ⟨(useLogger_mem_startLoop_iff env w p _ other svc).2 ⟨ho, heo, hso⟩,
      (start_mem_startLoop_iff env w p _ other svc _).2 ⟨ho, heo, hso, rfl⟩⟩

/-- C5 at `ghostEnv`: `ghost` is reported and skipped, `beta`, enumerated after
it, is started. -/
theorem unsupported_service_is_skipped_witness :
    "ghost" ∈ ghostEnv.GetStringMap "Services" ∧ enabled ghostEnv "ghost" = true ∧
    ghostEnv.GetService "ghost" = none ∧
    Event.log [LogArg.str "Unsupported service: ghost"] ∈
      startAll ghostEnv quietWorld noCredentials ∧
    (∀ svc c, Event.start "ghost" svc c ∉ startAll ghostEnv quietWorld noCredentials) ∧
    Event.start "beta" { ident := 2 } (serviceConfig ghostEnv noCredentials "beta") ∈
      startAll ghostEnv quietWorld noCredentials :=
  have h := unsupported_service_is_skipped ghostEnv quietWorld noCredentials "ghost"
    (by decide) (by decide) (by decide)
  ⟨by decide, by decide, by decide, h.1, h.2.2.1,
    (h.2.2.2 "beta" { ident := 2 } (by decide) (by decide) (by decide)).2⟩

/-- C6: whatever the outcomes of the `Start` calls are (nil or an error within
the second, or nothing within it), the loop runs through all the keys and calls
`Start` exactly once for every configuration key that is enabled and resolved
by the registry, in enumeration order, and for no key whose `Enabled` flag is
false; the calls (key, service, config) are the same under any two assignments
of outcomes. -/
theorem start_calls_do_not_depend_on_outcomes (env : Environment) (w : World) (p : Provisioned)
    (hkeys : (env.GetStringMap "Services").Nodup) :
    startCalls (startAll env w p) = (env.GetStringMap "Services").filterMap (startTarget env p) ∧
    (startCalls (startAll env w p)).map (fun c => c.1) =
      (env.GetStringMap "Services").filter (startable env) ∧
    (∀ key ∈ env.GetStringMap "Services",
      ((startCalls (startAll env w p)).map (fun c => c.1)).count key =
        if startable env key = true then 1 else 0) ∧
    (∀ key svc c, enabled env key = false → Event.start key svc c ∉ startAll env w p) ∧
    (∀ w', startCalls (startAll env w' p) = startCalls (startAll env w p)) ∧
    (∀ ks1 ks2, env.GetStringMap "Services" = ks1 ++ ks2 →
      startAll env w p = startLoop env w p ks1 ++ startLoop env w p ks2) := by
  unfold startAll
  refine ⟨startCalls_startLoop env w p _, startKeys_startLoop env w p _, ?_, ?_, ?_, ?_⟩
  · intro key hk
    rw [startKeys_startLoop, List.count_eq_of_nodup (hkeys.filter _)]
    by_cases hs : startable env key = true
    · rw [if_pos hs, if_pos (List.mem_filter.2 ⟨hk, hs⟩)]
    · rw [if_neg hs, if_neg (fun h => hs (List.mem_filter.1 h).2)]
  · intro key svc c hen h
    rw [start_mem_startLoop_iff, hen] at h
    exact Bool.false_ne_true h.2.1
  · intro w'
    rw [startCalls_startLoop, startCalls_startLoop]
  · intro ks1 ks2 h
    rw [h, startLoop_append]

/-- C6 at `mixedEnv` (`beta` disabled) with the `Start` of `alpha` hanging:
`alpha` and `gamma` are started once each, `beta` is not. -/
theorem start_calls_do_not_depend_on_outcomes_witness :
    (mixedEnv.GetStringMap "Services").Nodup ∧
    (startCalls (startAll mixedEnv failingWorld noCredentials)).map (fun c => c.1) =
      ["alpha", "gamma"] ∧
    startCalls (startAll mixedEnv quietWorld noCredentials) =
      startCalls (startAll mixedEnv failingWorld noCredentials) :=
  have h := start_calls_do_not_depend_on_outcomes mixedEnv failingWorld noCredentials (by decide)
  ⟨by decide, h.2.1.trans (by decide), h.2.2.2.2.1 quietWorld⟩

/-- C8: the provisioning block always returns. With a non-empty user map the map
handed to the bus holds `users[serviceUser] = servicePass`; every `Start` call of
the loop gets a config whose `MQTT.User` and `MQTT.Pass` are that same pair (the
service's sub-tree with the two keys set), and every enabled configuration key
that the registry resolves does get such a `Start` call. With an empty map the
bus gets the map as it was, every `Start` call gets the sub-tree untouched, and
every enabled resolved key gets that call. `RunE` hands exactly this map to
`mqtt.New` and runs exactly this loop when the TLS certificate loads and the bus
is created. -/
theorem services_receive_bus_credentials (users : StringMap) (r : Rand) (env : Environment)
    (w : World) :
    ∃ p, provision users r = some p ∧
      (∀ cfg : Settings, cfg.users = users → (cfg.tlsEnabled = false ∨ cfg.loadKeyPair = none) →
        cfg.mqttNew p.users = none →
        RunE cfg env w r = RunResult.running p.users (startAll env w p)) ∧
      (0 < users.len →
        StringMap.get? p.users p.serviceUser = some p.servicePass ∧
        (∀ key svc c, Event.start key svc c ∈ startAll env w p →
          StringMap.get? c "MQTT.User" = some p.serviceUser ∧
          StringMap.get? c "MQTT.Pass" = some p.servicePass ∧
          c = ((env.Sub ("Services." ++ key)).Set "MQTT.User" p.serviceUser).Set
                "MQTT.Pass" p.servicePass) ∧
        (∀ key svc, key ∈ env.GetStringMap "Services" → enabled env key = true →
          env.GetService key = some svc →
          Event.start key svc
              (((env.Sub ("Services." ++ key)).Set "MQTT.User" p.serviceUser).Set
                "MQTT.Pass" p.servicePass) ∈ startAll env w p ∧
          StringMap.get?
              (((env.Sub ("Services." ++ key)).Set "MQTT.User" p.serviceUser).Set
                "MQTT.Pass" p.servicePass) "MQTT.User" = some p.serviceUser ∧
          StringMap.get?
              (((env.Sub ("Services." ++ key)).Set "MQTT.User" p.serviceUser).Set
                "MQTT.Pass" p.servicePass) "MQTT.Pass" = some p.servicePass)) ∧
      (users.len = 0 →
        p.users = users ∧
        (∀ key svc c, Event.start key svc c ∈ startAll env w p →
          c = env.Sub ("Services." ++ key)) ∧
        (∀ key svc, key ∈ env.GetStringMap "Services" → enabled env key = true →
          env.GetService key = some svc →
          Event.start key svc (env.Sub ("Services." ++ key)) ∈ startAll env w p)) ∧
      startCalls (startAll env w p) =
        (env.GetStringMap "Services").filterMap (fun key =>
          if enabled env key then
            (env.GetService key).map (fun svc => (key, svc,
              if p.usingUsers then
                ((env.Sub ("Services." ++ key)).Set "MQTT.User" p.serviceUser).Set
                  "MQTT.Pass" p.servicePass
              else env.Sub ("Services." ++ key)))
          else none) := by
  have hrun : ∀ p, provision users r = some p →
      ∀ cfg : Settings, cfg.users = users → (cfg.tlsEnabled = false ∨ cfg.loadKeyPair = none) →
        cfg.mqttNew p.users = none →
        RunE cfg env w r = RunResult.running p.users (startAll env w p) := by
    intro p hp cfg hu htls hbus
    have h1 : (if cfg.tlsEnabled = true then cfg.loadKeyPair else none) = none := by
      rcases htls with h | h
      · simp [h]
      · simp [h]
    unfold RunE
    simp only [h1, hu, hp, hbus]
  have hcalls : ∀ p : Provisioned, startCalls (startAll env w p) =
      (env.GetStringMap "Services").filterMap (fun key =>
        if enabled env key then
          (env.GetService key).map (fun svc => (key, svc,
            if p.usingUsers then
              ((env.Sub ("Services." ++ key)).Set "MQTT.User" p.serviceUser).Set
                "MQTT.Pass" p.servicePass
            else env.Sub ("Services." ++ key)))
        else none) := by
    intro p
    unfold startAll
    rw [startCalls_startLoop]
    rfl
  have huser : ∀ (c : Config) (u pw : String),
      StringMap.get? ((c.Set "MQTT.User" u).Set "MQTT.Pass" pw) "MQTT.User" = some u := by
    intro c u pw
    unfold Config.Set
    rw [StringMap.get?_set_ne _ _ _ _ (by decide)]
    exact StringMap.get?_set_self _ _ _
  have hpass : ∀ (c : Config) (u pw : String),
      StringMap.get? ((c.Set "MQTT.User" u).Set "MQTT.Pass" pw) "MQTT.Pass" = some pw := by
    intro c u pw
    unfold Config.Set
    exact StringMap.get?_set_self _ _ _
  by_cases hpos : 0 < users.len
  · obtain ⟨u, pw, r2, hp⟩ := provision_of_nonempty users r hpos
    refine ⟨_, hp, hrun _ hp, fun _ => ⟨StringMap.get?_set_self users u pw, ?_, ?_⟩,
      fun h0 => absurd hpos (by omega), hcalls _⟩
    · intro key svc c hc
      have hcfg := ((start_mem_startLoop_iff env w _ _ key svc c).1 hc).2.2.2
      simp only [serviceConfig, if_true] at hcfg
      subst hcfg
      exact ⟨huser _ _ _, hpass _ _ _, rfl⟩
    · intro key svc hk hen hs
      refine ⟨?_, huser _ _ _, hpass _ _ _⟩
      unfold startAll
      rw [start_mem_startLoop_iff]
      refine ⟨hk, hen, hs, ?_⟩
      simp only [serviceConfig, if_true]
  · refine ⟨_, provision_of_empty users r (by omega), hrun _ (provision_of_empty users r (by omega)),
      fun h => absurd h hpos, fun _ => ⟨rfl, ?_, ?_⟩, hcalls _⟩
    · intro key svc c hc
      have hcfg := ((start_mem_startLoop_iff env w _ _ key svc c).1 hc).2.2.2
      simp only [serviceConfig, Bool.false_eq_true, if_false] at hcfg
      exact hcfg
    · intro key svc hk hen hs
      unfold startAll
      rw [start_mem_startLoop_iff]
      refine ⟨hk, hen, hs, ?_⟩
      simp only [serviceConfig, Bool.false_eq_true, if_false]

/-- C8 at the user map `bob -> pw` with every draw equal to 1, over `mixedEnv`:
the generated pair is ("b", "b"), the bus map holds it, and the enabled services
`alpha` and `gamma` are both started with a config that carries it. -/
theorem services_receive_bus_credentials_witness :
    0 < StringMap.len [("bob", "pw")] ∧
    ∃ p, provision [("bob", "pw")] { draws := fun _ => 1, pos := 0 } = some p ∧
      p.serviceUser = "b" ∧ p.servicePass = "b" ∧
      StringMap.get? p.users "b" = some "b" ∧
      Event.start "alpha" { ident := 1 } [("MQTT.Pass", "b"), ("MQTT.User", "b")] ∈
        startAll mixedEnv failingWorld p ∧
      Event.start "gamma" { ident := 3 } [("MQTT.Pass", "b"), ("MQTT.User", "b")] ∈
        startAll mixedEnv failingWorld p ∧
      startCalls (startAll mixedEnv failingWorld p) =
        [("alpha", { ident := 1 }, [("MQTT.Pass", "b"), ("MQTT.User", "b")]),
         ("gamma", { ident := 3 }, [("MQTT.Pass", "b"), ("MQTT.User", "b")])] ∧
      ∀ key svc c, Event.start key svc c ∈ startAll mixedEnv failingWorld p →
        StringMap.get? c "MQTT.User" = some p.serviceUser ∧
        StringMap.get? c "MQTT.Pass" = some p.servicePass :=
  ⟨by decide,
    match services_receive_bus_credentials [("bob", "pw")] { draws := fun _ => 1, pos := 0 }
        mixedEnv failingWorld with
    | ⟨p, hp, _, h, _, hcalls⟩ =>
      have hpair : p.serviceUser = "b" ∧ p.servicePass = "b" ∧ p.usingUsers = true := by
        have hval : (provision [("bob", "pw")] { draws := fun _ => 1, pos := 0 }).map
            (fun q => (q.serviceUser, q.servicePass, q.usingUsers)) = some ("b", "b", true) := rfl
        rw [hp] at hval
        simp only [Option.map_some', Option.some.injEq, Prod.mk.injEq] at hval
        exact hval
      have hget := (h (by decide)).1
      have ha := ((h (by decide)).2.2 "alpha" { ident := 1 } (by decide) (by decide)
        (by decide)).1
      have hg := ((h (by decide)).2.2 "gamma" { ident := 3 } (by decide) (by decide)
        (by decide)).1
      ⟨p, hp, hpair.1, hpair.2.1,
        by rw [hpair.1, hpair.2.1] at hget; exact hget,
        by rw [hpair.1, hpair.2.1] at ha; exact ha,
        by rw [hpair.1, hpair.2.1] at hg; exact hg,
        by rw [hcalls, hpair.1, hpair.2.1, hpair.2.2]; decide,
        fun key svc c hc =>
          ⟨((h (by decide)).2.1 key svc c hc).1, ((h (by decide)).2.1 key svc c hc).2.1⟩⟩⟩

/-- C10 as stated fails on the text of the timeout entry: with `A` returning nil
at once and `B` returning after two seconds, enumerated `A` then `B`, the log is
"Starting service: A", (A, "service started"), "Starting service: B", "Timeout
while starting service"; no entry reads "timeout while starting service". -/
theorem start_log_counterexample :
    logEntries (startAll abEnv slowBWorld noCredentials) =
      [[LogArg.str "Starting service: A"], [LogArg.str "A", LogArg.str "service started"],
       [LogArg.str "Starting service: B"], [LogArg.str "Timeout while starting service"]] ∧
    [LogArg.str "timeout while starting service"] ∉
      logEntries (startAll abEnv slowBWorld noCredentials) := by
  decide

/-- C10 (amended): the log of the start loop is, key by key in enumeration order,
the entries of that key alone; for an enabled, registered service they are
"Starting service: <key>" followed by one outcome that depends on its own start
result only: (<key>, "service started") for nil within the second, ("Failed
starting", <key>, "service") and the error for an error within it, and "Timeout
while starting service" when nothing arrives within it, whatever the abandoned
`Start` returns later. -/
theorem start_log_in_enumeration_order (env : Environment) (w : World) (p : Provisioned) :
    logEntries (startAll env w p) = (env.GetStringMap "Services").flatMap (startLog env w p) ∧
    (∀ key svc, enabled env key = true → env.GetService key = some svc →
      startLog env w p key =
        [LogArg.str ("Starting service: " ++ key)] ::
          outcomeEntries key (w.Start key svc (serviceConfig env p key))) ∧
    (∀ key, outcomeEntries key (StartResult.inTime none) =
      [[LogArg.str key, LogArg.str "service started"]]) ∧
    (∀ key err, outcomeEntries key (StartResult.inTime (some err)) =
      [[LogArg.str "Failed starting", LogArg.str key, LogArg.str "service"], [LogArg.err err]]) ∧
    (∀ key later, outcomeEntries key (StartResult.late later) =
      [[LogArg.str "Timeout while starting service"]]) := by
  refine ⟨logEntries_startLoop env w p _, ?_, fun _ => rfl, fun _ _ => rfl, fun _ _ => rfl⟩
  intro key svc hen hs
  simp only [startLog, hen, hs, if_true]

/-- The amended C10 at `abEnv` and `slowBWorld`: the entries of `A`, then those of
`B`. -/
theorem start_log_in_enumeration_order_witness :
    enabled abEnv "B" = true ∧ abEnv.GetService "B" = some { ident := 2 } ∧
    logEntries (startAll abEnv slowBWorld noCredentials) =
      [[LogArg.str "Starting service: A"], [LogArg.str "A", LogArg.str "service started"],
       [LogArg.str "Starting service: B"], [LogArg.str "Timeout while starting service"]] ∧
    startLog abEnv slowBWorld noCredentials "B" =
      [[LogArg.str "Starting service: B"], [LogArg.str "Timeout while starting service"]] :=
  have h := start_log_in_enumeration_order abEnv slowBWorld noCredentials
  ⟨by decide, by decide, h.1.trans (by decide),
    (h.2.1 "B" { ident := 2 } (by decide) (by decide)).trans (by decide)⟩

/-- C7: `brokerLogger.Log` writes to the log sink exactly when `err` is non-nil
and its dynamic type is not `*net.OpError`; it then writes two entries, the line
"New error encountered:" and the error itself; for a nil error and for a
`*net.OpError` it writes nothing. The function returns for every event, client,
packet (nil, of a known type or of an unknown type) and message, and what it does
is the same for all of them. -/
theorem brokerLogger_logs_only_other_errors (event : LogEvent) (client : Option Client)
    (pkt : Option Packet) (message : Option Message) (err : Option GoError) :
    (logEntries (brokerLogger.Log event client pkt message err) ≠ [] ↔
      ∃ e, err = some e ∧ e.isNetOpError = false) ∧
    logEntries (brokerLogger.Log event client pkt message none) = [] ∧
    (∀ e, e.isNetOpError = true →
      brokerLogger.Log event client pkt message (some e) = []) ∧
    (∀ e, e.isNetOpError = false →
      logEntries (brokerLogger.Log event client pkt message (some e)) =
        [[LogArg.str "New error encountered:"], [LogArg.err e]]) ∧
    (∀ event' client' pkt' message',
      brokerLogger.Log event' client' pkt' message' err =
        brokerLogger.Log event client pkt message err) := by
  refine ⟨?_, ?_, ?_, ?_, ?_⟩
  · rw [brokerLogger_Log_eq]
    cases err with
    | none => simp [errorOutput, logEntries]
    | some e =>
      cases h : e.isNetOpError with
      | true => simp [errorOutput, logEntries, h]
      | false => simp [errorOutput, logEntries, h]
  · rw [brokerLogger_Log_eq]; rfl
  · intro e h
    rw [brokerLogger_Log_eq]
    simp [errorOutput, h]
  · intro e h
    rw [brokerLogger_Log_eq]
    simp [errorOutput, logEntries, h]
  · intro event' client' pkt' message'
    rw [brokerLogger_Log_eq, brokerLogger_Log_eq]

/-- C7 at a connection-reset `*net.OpError` and at a plain error, for the event
`broker.TransportError` and a packet of unknown type 99. -/
theorem brokerLogger_logs_only_other_errors_witness :
    brokerLogger.Log 6 none (some { type := 99 }) none
      (some { dynType := "*net.OpError", text := "read: connection reset by peer" }) = [] ∧
    logEntries (brokerLogger.Log 6 none (some { type := 99 }) none
      (some { dynType := "*errors.errorString", text := "session store failed" })) =
      [[LogArg.str "New error encountered:"],
       [LogArg.err { dynType := "*errors.errorString", text := "session store failed" }]] :=
  have h := brokerLogger_logs_only_other_errors 6 none (some { type := 99 }) none none
  ⟨h.2.2.1 _ (by decide), h.2.2.2.1 _ (by decide)⟩

end Casa
